import Mathlib

/-!
# FastORM — shallow embedding and verification

A shallow Lean embedding of the metadata registry and SQL-generation layer
of the `fastorm` TypeScript ORM, together with theorems settling the spec's
claims against it.

Conventions of the embedding:

* JavaScript runtime values appearing in rows, criteria and entity
  instances are modelled by `Value` (`null`, numbers, strings).  A missing
  property (JS `undefined`) is modelled as an `Option Value` being `none`:
  `jLookup row k = none` plays the role of `row[k] === undefined`.
* A class constructor (used by the registry as a reference-identity key,
  and carrying a `.name`) is modelled by `TypeTok`: an opaque numeric
  identity plus the class name.  Two tokens are the same key iff they are
  structurally equal; distinct ids model distinct class objects that may
  share a name.
* `pool.query` calls are not executed; each operation is modelled as a
  pure function returning the SQL text it would send and the positional
  parameter list it would bind (and, for loops, the list of statements in
  issue order).
-/

/-- JS values stored in entity fields, rows and criteria.  `undefined` is
represented externally by `Option Value = none`. -/
inductive Value where
  | vNull : Value
  | vInt : Int → Value
  | vStr : String → Value
deriving DecidableEq, Repr

/-- JS truthiness of a present value (`Boolean(v)`): `null`, `0` and the
empty string are falsy. -/
def Value.truthy : Value → Bool
  | .vNull => false
  | .vInt n => n != 0
  | .vStr s => s != ""

/-- Truthiness of a possibly-absent property: `undefined` is falsy. -/
def jsTruthy : Option Value → Bool
  | none => false
  | some v => v.truthy

/-- A JS object / SQL row: association list from property names to values.
Property lookup (`row[k]`) takes the first binding; absent keys give
`undefined` (`none`). -/
abbrev JRow := List (String × Value)

/-- `row[k]` — `none` models `undefined`. -/
def jLookup (r : JRow) (k : String) : Option Value :=
  (r.find? (fun p => p.1 = k)).map (·.2)

/-- A class constructor: reference identity (`id`) plus `Class.name`. -/
structure TypeTok where
  id : Nat
  name : String
deriving DecidableEq, Repr

/-- `EntityMetadata` of `metadataStorage.ts`: a registered entity. -/
structure EntityMetadata where
  target : TypeTok
  tableName : String
deriving DecidableEq, Repr

/-- `ColumnMetadata` of `metadataStorage.ts`. -/
structure ColumnMetadata where
  target : TypeTok
  propertyName : String
  primary : Bool := false
  generated : Bool := false
deriving DecidableEq, Repr

/-- `RelationType` of `metadataStorage.ts`. -/
inductive RelationType where
  | OneToOne | OneToMany | ManyToOne | ManyToMany
deriving DecidableEq, Repr

/-- `RelationMetadata` of `metadataStorage.ts`.  The deferred
`relatedEntity: () => Function` thunk is modelled by its resolved value. -/
structure RelationMetadata where
  target : TypeTok
  propertyName : String
  relationType : RelationType
  relatedEntity : TypeTok
deriving DecidableEq, Repr

/-- The state of the `MetadataStorage` singleton: three append-only lists. -/
structure Storage where
  entities : List EntityMetadata
  columns : List ColumnMetadata
  relations : List RelationMetadata
deriving Repr

/-- `MetadataStorage.addEntity`: `this.entities.push(entity)`. -/
def addEntity (es : List EntityMetadata) (e : EntityMetadata) : List EntityMetadata :=
  es ++ [e]

/-- `MetadataStorage.getEntity`: `this.entities.find(e => e.target === target)`. -/
def getEntityIn (es : List EntityMetadata) (target : TypeTok) : Option EntityMetadata :=
  es.find? (fun e => e.target = target)

/-- `MetadataStorage.getEntity` on a full storage state. -/
def Storage.getEntity (s : Storage) (target : TypeTok) : Option EntityMetadata :=
  getEntityIn s.entities target

/-- `MetadataStorage.getColumns`: `this.columns.filter(c => c.target === target)`. -/
def Storage.getColumns (s : Storage) (target : TypeTok) : List ColumnMetadata :=
  s.columns.filter (fun c => c.target = target)

/-- `MetadataStorage.getRelations`: filter of the relation registry. -/
def Storage.getRelations (s : Storage) (target : TypeTok) : List RelationMetadata :=
  s.relations.filter (fun r => r.target = target)

/-- Lexicographic order on character lists by code point, as the default
JS sort comparator orders strings. -/
def lexLeChars : List Char → List Char → Bool
  | [], _ => true
  | _ :: _, [] => false
  | a :: as, b :: bs =>
      if a.toNat < b.toNat then true
      else if b.toNat < a.toNat then false
      else lexLeChars as bs

/-- JS string comparison `x <= y` of the default sort comparator. -/
def jsStrLe (x y : String) : Bool := lexLeChars x.data y.data

/-- JS `String.prototype.toLowerCase` on the (ASCII) class names in play. -/
def jsToLower (s : String) : String := ⟨s.data.map Char.toLower⟩

/-- JS `[x, y].sort()` for two strings: default lexicographic comparator. -/
def jsSort2 (x y : String) : List String :=
  if jsStrLe x y then [x, y] else [y, x]

/-- The join-table name built in `synchronize.ts`:
`[entityAName, entityBName].sort().join('_')` where each name is the
lower-cased class name. -/
def joinTableName (a b : TypeTok) : String :=
  String.intercalate "_" (jsSort2 (jsToLower a.name) (jsToLower b.name))

/-- `Repository.buildWhere` (both variants): placeholders numbered from
`$1`, clause `k = $i` joined by `AND`, values in criteria order. -/
def buildWhere (criteria : List (String × Value)) : String × List Value :=
  (String.intercalate " AND "
      (criteria.enum.map fun p => p.2.1 ++ " = $" ++ toString (p.1 + 1)),
   criteria.map (·.2))

/-- The SQL text and bound values produced by the simple variant's
`Repository.findOne` before execution:
`SELECT * FROM <table> WHERE <clause> LIMIT 1`. -/
def findOneQuery (table : String) (criteria : List (String × Value)) :
    String × List Value :=
  let w := buildWhere criteria
  ("SELECT * FROM " ++ table ++ " WHERE " ++ w.1 ++ " LIMIT 1", w.2)

/-- The SQL text and bound values produced by `Repository.update` (both
variants build the same text): SET placeholders numbered from `$1`, WHERE
clause from `buildWhere`, values `[...setValues, ...criteriaValues]`. -/
def updateQuery (table : String) (criteria updates : List (String × Value)) :
    String × List Value :=
  let w := buildWhere criteria
  let setClause := String.intercalate ", "
      (updates.enum.map fun p => p.2.1 ++ " = $" ++ toString (p.1 + 1))
  ("UPDATE " ++ table ++ " SET " ++ setClause ++ " WHERE " ++ w.1,
   updates.map (·.2) ++ w.2)

/-- The SQL text the claim's spec sentence expects for `findOne({})`:
a clause-less, unfiltered single-row query. -/
def specClauselessFindOneSQL (table : String) : String :=
  "SELECT * FROM " ++ table ++ " LIMIT 1"

/-- `save`'s column filter (`save.ts` line 31): keep a column unless it is
`generated` and the instance's value for it is `undefined`. -/
def insertableColumns (cols : List ColumnMetadata) (entity : JRow) :
    List ColumnMetadata :=
  cols.filter fun c => !(c.generated && (jLookup entity c.propertyName).isNone)

/-- The observable outcome of a successful `save`: the INSERT column list,
the positionally aligned bound values (`none` = JS `undefined`), and the
SQL text. -/
structure InsertPlan where
  columnNames : List String
  values : List (Option Value)
  sql : String
deriving DecidableEq, Repr

/-- `save(entity)` of `save.ts`, up to the `pool.query` call: throws
`Entity metadata not found` when the entity's metadata or columns are
missing, otherwise builds the parameterized INSERT.  The `Except.error`
branch models the throw before any SQL is issued. -/
def saveRun (s : Storage) (ctor : TypeTok) (entity : JRow) :
    Except String InsertPlan :=
  let entityMeta := s.getEntity ctor
  let columns := s.getColumns ctor
  if entityMeta = none ∨ columns.length = 0 then
    .error ("Entity metadata not found for " ++ ctor.name)
  else
    let table := (entityMeta.getD ⟨ctor, ""⟩).tableName
    let cols := insertableColumns columns entity
    let columnNames := cols.map (·.propertyName)
    let values := columnNames.map (jLookup entity)
    let placeholders := String.intercalate ", "
        ((List.range values.length).map fun i => "$" ++ toString (i + 1))
    .ok { columnNames := columnNames,
          values := values,
          sql := "INSERT INTO " ++ table ++ " (" ++
                 String.intercalate ", " columnNames ++ ") VALUES (" ++
                 placeholders ++ ")" }

/-- Column definition fragments of `synchronize.ts` (lines 32–45) for one
entity: typed column fragments, then FK fragments for `ManyToOne` and
`OneToOne` relations. -/
def columnDefs (cols : List ColumnMetadata) (rels : List RelationMetadata) :
    List String :=
  (cols.map fun col =>
    let ty := if col.generated then "SERIAL" else "VARCHAR(255)"
    ((col.propertyName ++ " " ++ ty ++ " " ++
      (if col.primary then "PRIMARY KEY" else "")).trim)) ++
  (rels.filter (fun r =>
      r.relationType = RelationType.ManyToOne ∨
      r.relationType = RelationType.OneToOne)).flatMap fun rel =>
    [rel.propertyName ++ "_id INTEGER",
     "FOREIGN KEY (" ++ rel.propertyName ++ "_id) REFERENCES " ++
       jsToLower rel.relatedEntity.name ++ "(id)"]

/-- The `CREATE TABLE` statement `synchronize` issues for one entity. -/
def entityTableSQL (s : Storage) (e : EntityMetadata) : String :=
  "CREATE TABLE IF NOT EXISTS " ++ e.tableName ++ " (" ++
  String.intercalate ", " (columnDefs (s.getColumns e.target) (s.getRelations e.target)) ++
  ");"

/-- The join-table `CREATE TABLE` statement `synchronize` issues for one
`ManyToMany` relation record (whitespace of the template literal kept). -/
def joinTableSQL (rel : RelationMetadata) : String :=
  let a := jsToLower rel.target.name
  let b := jsToLower rel.relatedEntity.name
  let jt := joinTableName rel.target rel.relatedEntity
  let colA := a ++ "_id"
  let colB := b ++ "_id"
  "\n        CREATE TABLE IF NOT EXISTS " ++ jt ++ " (\n          " ++
  colA ++ " INTEGER NOT NULL,\n          " ++
  colB ++ " INTEGER NOT NULL,\n          PRIMARY KEY (" ++
  colA ++ ", " ++ colB ++ "),\n          FOREIGN KEY (" ++
  colA ++ ") REFERENCES " ++ a ++ "(id),\n          FOREIGN KEY (" ++
  colB ++ ") REFERENCES " ++ b ++ "(id)\n        );\n      "

/-- The entity-table statements issued by the first loop of
`synchronize()`: one per registered entity whose column list is nonempty
(empty ones are skipped with a warning). -/
def entityStatements (s : Storage) : List String :=
  (s.entities.filter (fun e => !(s.getColumns e.target).isEmpty)).map
    (entityTableSQL s)

/-- The join-table statements issued by the second loop of
`synchronize()`: one per `ManyToMany` relation record, with no
deduplication. -/
def joinStatements (s : Storage) : List String :=
  (s.relations.filter (fun r => r.relationType = RelationType.ManyToMany)).map
    joinTableSQL

/-- All statements `synchronize()` sends to the pool, in issue order. -/
def synchronizeStatements (s : Storage) : List String :=
  entityStatements s ++ joinStatements s

/-- The unordered pair of participating type tokens of a relation,
normalised by the opaque identity — the deduplication key the claim
describes (`deduplicated by the unordered pair of participating types`). -/
def unorderedPairKey (rel : RelationMetadata) : TypeTok × TypeTok :=
  if rel.target.id ≤ rel.relatedEntity.id then (rel.target, rel.relatedEntity)
  else (rel.relatedEntity, rel.target)

/-- Modelled from the claim's words, for comparison with the code: the
`ManyToMany` relations of a storage deduplicated by unordered pair of
participating types. -/
def specDedupJoinPairs (s : Storage) : List (TypeTok × TypeTok) :=
  ((s.relations.filter (fun r => r.relationType = RelationType.ManyToMany)).map
    unorderedPairKey).dedup

/-- SQL equality comparison `col = $n`: a `NULL` parameter matches no row
(`x = NULL` is never true), otherwise the row's column value must equal
the parameter. -/
def sqlEqMatch (rowVal : Option Value) (param : Value) : Bool :=
  match param with
  | .vNull => false
  | v => rowVal = some v

/-- A row satisfies a conjunctive equality criteria list (the `WHERE`
clause `buildWhere` produces). -/
def rowMatches (r : JRow) (crit : List (String × Value)) : Bool :=
  crit.all fun p => sqlEqMatch (jLookup r p.1) p.2

/-- Database execution of the simple variant's `findOne`: first row of the
table satisfying all criteria, `none` when no row matches (`LIMIT 1`,
`res.rows[0] ?? null`). -/
def execFindOne (table : List JRow) (crit : List (String × Value)) :
    Option JRow :=
  (table.filter (fun r => rowMatches r crit)).head?

/-- One `ManyToOne` step of the simple variant's
`Repository.loadRelations` (`repository.ts` lines 143–151) for a single
relation field.  Returns the criteria of the secondary `findOne` queries
issued (in order) and the written value of the relation field:
`none` = field left untouched, `some none` = set to `null`,
`some (some r)` = set to the related row `r`. -/
def loadOneRelationSimple (fieldName : String) (relatedTable : List JRow)
    (entity : JRow) : List (List (String × Value)) × Option (Option JRow) :=
  match jLookup entity (fieldName ++ "_id") with
  | none => ([], none)
  | some v => ([[("id", v)]], some (execFindOne relatedTable [("id", v)]))

/-- The `Repository.sqlCache` map: association list, key to SQL text. -/
abbrev SqlCache := List (String × String)

/-- `Map.has`. -/
def cacheHas (c : SqlCache) (k : String) : Bool :=
  (c.find? (fun p => p.1 = k)).isSome

/-- `Map.get` (defaulting, used only after `has`). -/
def cacheGet (c : SqlCache) (k : String) : String :=
  ((c.find? (fun p => p.1 = k)).map (·.2)).getD ""

/-- `Repository.getOrCacheSQL`: build and store on a miss, return the
stored text otherwise.  Returns the SQL text used plus the new cache. -/
def getOrCacheSQL (c : SqlCache) (k : String) (builder : String) :
    String × SqlCache :=
  if cacheHas c k then (cacheGet c k, c)
  else (builder, c ++ [(k, builder)])

/-- `Repository.buildSelectClause`: explicit column list or `*`. -/
def buildSelectClause (select : List String) : String :=
  if select.isEmpty then "*" else String.intercalate ", " select

/-- The extended variant's `Repository.findOne` (`save.ts` lines 151–169)
up to the `pool.query` call: cache key from table and criteria field
names only, SQL built (on a miss) from the select clause and WHERE
clause.  Returns the SQL text sent and the updated cache. -/
def findOneCached (c : SqlCache) (table : String)
    (criteria : List (String × Value)) (select : List String) :
    String × SqlCache :=
  let w := buildWhere criteria
  let key := table ++ "-findOne-" ++ String.intercalate "," (criteria.map (·.1))
  getOrCacheSQL c key
    ("SELECT " ++ buildSelectClause select ++ " FROM " ++ table ++
     " WHERE " ++ w.1 ++ " LIMIT 1")

/-- Worker for `jsSetDedup`: keep an element unless already seen. -/
def jsSetDedupAux {α : Type} [DecidableEq α] (seen : List α) : List α → List α
  | [] => []
  | a :: l => if a ∈ seen then jsSetDedupAux seen l
              else a :: jsSetDedupAux (a :: seen) l

/-- First-occurrence deduplication, as the JS `new Set(...)` insertion
order performs it. -/
def jsSetDedup {α : Type} [DecidableEq α] (l : List α) : List α :=
  jsSetDedupAux [] l

/-- The truthy foreign-key values collected by the extended variant's
`loadRelations`: `[...new Set(rows.map(row => row[foreignKey]).filter(Boolean))]`. -/
def collectIds (fk : String) (rows : List JRow) : List Value :=
  jsSetDedup (rows.filterMap fun r => (jLookup r fk).filter Value.truthy)

/-- `new Map(res.rows.map(row => [row.id, row])).get(k)`: the last row of
`res` keyed by its `id` value — later entries of a JS `Map` constructor
overwrite earlier ones. -/
def lastWithId (res : List JRow) (k : Option Value) : Option JRow :=
  res.reverse.find? (fun r => jLookup r "id" = k)

/-- One relation step of the extended variant's `Repository.loadRelations`
(`save.ts` lines 261–284) for a `ManyToOne` field: collect the deduplicated
truthy foreign keys; skip entirely (no query, rows untouched) when the
collection is empty; otherwise issue one batched
`SELECT * FROM <relatedTable> WHERE id IN (...)` and assign to every row's
relation field `map.get(row[fk]) ?? null`.  The result pairs each row with
the written field value (`none` = untouched, `some none` = `null`,
`some (some r)` = the related row). -/
def hydrateOne (fieldName : String) (rows relatedTable : List JRow) :
    Nat × List (JRow × Option (Option JRow)) :=
  let fk := fieldName ++ "_id"
  let ids := collectIds fk rows
  if ids.isEmpty then
    (0, rows.map fun r => (r, none))
  else
    let res := relatedTable.filter fun r =>
      match jLookup r "id" with
      | some v => decide (v ∈ ids)
      | none => false
    (1, rows.map fun r => (r, some (lastWithId res (jLookup r fk))))

/-- Modelled from the claim's words, for comparison with `hydrateOne`:
collect the distinct *non-null* foreign-key values, issue one batched
query when the set is nonempty (zero otherwise), and attach to each row
the related row whose `id` equals its foreign-key value, or `null` when
no related row matches. -/
def specHydrateOne (fieldName : String) (rows relatedTable : List JRow) :
    Nat × List (JRow × Option (Option JRow)) :=
  let fk := fieldName ++ "_id"
  let ids := jsSetDedup (rows.filterMap fun r =>
    match jLookup r fk with
    | some .vNull => none
    | o => o)
  (if ids.isEmpty then 0 else 1,
   rows.map fun r => (r, some (match jLookup r fk with
     | some .vNull => none
     | none => none
     | some v => relatedTable.find? (fun r' => jLookup r' "id" = some v))))

/-- Modelled from the amended claim's words: collect the distinct *truthy*
foreign-key values; when that collection is empty issue zero queries and
leave every row untouched; otherwise issue exactly one batched query and
set each row's relation field to the related-table row whose `id` equals
the row's foreign key when that key is truthy, and to `null` otherwise. -/
def specHydrateTruthy (fieldName : String) (rows relatedTable : List JRow) :
    Nat × List (JRow × Option (Option JRow)) :=
  let fk := fieldName ++ "_id"
  let ids := collectIds fk rows
  if ids.isEmpty then
    (0, rows.map fun r => (r, none))
  else
    (1, rows.map fun r => (r, some (match jLookup r fk with
      | some v =>
          if v.truthy then relatedTable.find? (fun r' => jLookup r' "id" = some v)
          else none
      | none => none)))

theorem char_eq_of_toNat_eq (a b : Char) (h : a.toNat = b.toNat) : a = b :=
  Char.eq_of_val_eq (UInt32.ext h)

theorem lexLeChars_total (x y : List Char) :
    lexLeChars x y = true ∨ lexLeChars y x = true := by
  induction x generalizing y with
  | nil => left; rfl
  | cons a as ih =>
    cases y with
    | nil => right; rfl
    | cons b bs =>
      by_cases h1 : a.toNat < b.toNat
      · left; simp [lexLeChars, h1]
      · by_cases h2 : b.toNat < a.toNat
        · right; simp [lexLeChars, h1, h2]
        · rcases ih bs with h | h <;> [left; right] <;>
            simp [lexLeChars, h1, h2, h]

theorem lexLeChars_antisymm (x y : List Char) (h1 : lexLeChars x y = true)
    (h2 : lexLeChars y x = true) : x = y := by
  induction x generalizing y with
  | nil =>
    cases y with
    | nil => rfl
    | cons b bs => simp [lexLeChars] at h2
  | cons a as ih =>
    cases y with
    | nil => simp [lexLeChars] at h1
    | cons b bs =>
      by_cases hab : a.toNat < b.toNat
      · simp [lexLeChars, hab, Nat.lt_asymm hab] at h2
      · by_cases hba : b.toNat < a.toNat
        · simp [lexLeChars, hab, hba] at h1
        · have hcc : a = b := char_eq_of_toNat_eq a b
            (Nat.le_antisymm (Nat.le_of_not_lt hba) (Nat.le_of_not_lt hab))
          subst hcc
          simp [lexLeChars, hab] at h1 h2
          rw [ih bs h1 h2]

theorem foldl_addEntity (init calls : List EntityMetadata) :
    calls.foldl addEntity init = init ++ calls := by
  induction calls generalizing init with
  | nil => simp
  | cons a l ih => simp [List.foldl_cons, addEntity, ih]

/-- C10: for every sequence of `addEntity` calls starting from the empty
registry, every descriptor is retained (duplicates included) and
`getEntity` resolves to the first-appended descriptor whose `target` is
identical to the requested type token; other types are unaffected since
this characterises the lookup for every token. -/
theorem getEntity_first_registration (calls : List EntityMetadata) (t : TypeTok) :
    (calls.foldl addEntity []).length = calls.length ∧
    getEntityIn (calls.foldl addEntity []) t =
      calls.find? (fun d => d.target = t) := by
  rw [foldl_addEntity]
  simp [getEntityIn]

/-- C5: the `ManyToMany` join-table name is the two lower-cased class
names joined with `_` in lexicographic order, hence independent of which
side declares the relation; `User`/`Role` yield `role_user` from either
side. -/
theorem joinTableName_symmetric :
    (∀ a b : TypeTok, joinTableName a b = joinTableName b a) ∧
    joinTableName ⟨0, "User"⟩ ⟨1, "Role"⟩ = "role_user" ∧
    joinTableName ⟨1, "Role"⟩ ⟨0, "User"⟩ = "role_user" := by
  refine ⟨fun a b => ?_, by decide, by decide⟩
  unfold joinTableName jsSort2
  by_cases h1 : jsStrLe (jsToLower a.name) (jsToLower b.name) = true
  · by_cases h2 : jsStrLe (jsToLower b.name) (jsToLower a.name) = true
    · have heq : jsToLower a.name = jsToLower b.name :=
        String.toList_inj.mp (lexLeChars_antisymm _ _ h1 h2)
      rw [heq]
    · simp [h1, h2]
  · have h2 : jsStrLe (jsToLower b.name) (jsToLower a.name) = true := by
      rcases lexLeChars_total (jsToLower a.name).data (jsToLower b.name).data
        with h | h
      · exact absurd h h1
      · exact h
    simp [h1, h2]

/-- C1: at `update({id: 1}, {name: "X"})` the code builds
`UPDATE user SET name = $1 WHERE id = $1` with bound values `["X", 1]` —
the values are bound update-first as the claim states, but `buildWhere`
restarts placeholder numbering at `$1`, so the WHERE placeholder collides
with the SET placeholder instead of being `$2`: the statement references
one parameter while two are bound. -/
theorem update_where_placeholder_restarts :
    updateQuery "user" [("id", Value.vInt 1)] [("name", Value.vStr "X")] =
      ("UPDATE user SET name = $1 WHERE id = $1",
       [Value.vStr "X", Value.vInt 1]) ∧
    (updateQuery "user" [("id", Value.vInt 1)] [("name", Value.vStr "X")]).1 ≠
      "UPDATE user SET name = $1 WHERE id = $2" := by
  constructor
  · rfl
  · decide

/-- C6 counterexample: `findOne({})` on table `user` does not produce the
clause-less query `SELECT * FROM user LIMIT 1`; it produces
`SELECT * FROM user WHERE  LIMIT 1` — the `WHERE` keyword with an empty
predicate — binding no values. -/
theorem findOne_empty_not_clauseless :
    (findOneQuery "user" []).1 = "SELECT * FROM user WHERE  LIMIT 1" ∧
    (findOneQuery "user" []).2 = [] ∧
    (findOneQuery "user" []).1 ≠ specClauselessFindOneSQL "user" := by
  refine ⟨rfl, rfl, by decide⟩

/-- C6 amended: for every table, `findOne` with empty criteria generates
`SELECT * FROM <table> WHERE  LIMIT 1` with an empty bind list: the WHERE
keyword is retained with an empty predicate (a statement PostgreSQL
rejects as a syntax error), not a clause-less first-row query. -/
theorem findOne_empty_retains_where (table : String) :
    findOneQuery table [] =
      ("SELECT * FROM " ++ table ++ " WHERE  LIMIT 1", []) := by
  show ("SELECT * FROM " ++ table ++ " WHERE " ++ "" ++ " LIMIT 1", []) = _
  rw [String.append_empty, String.append_assoc]
  rfl

/-- C7: `save` takes its metadata-not-found error branch (and issues no
SQL — the `Except.error` result carries no statement) exactly when the
constructor has no registered entity descriptor or its registered column
list is empty; otherwise an `InsertPlan` is produced. -/
theorem save_metadata_error_iff (s : Storage) (ctor : TypeTok) (entity : JRow) :
    (∃ msg, saveRun s ctor entity = .error msg) ↔
      (s.getEntity ctor = none ∨ s.getColumns ctor = []) := by
  constructor
  · rintro ⟨msg, h⟩
    by_cases hc : s.getEntity ctor = none ∨ s.getColumns ctor = []
    · exact hc
    · simp only [saveRun, List.length_eq_zero] at h
      rw [if_neg hc] at h
      exact absurd h (by simp)
  · intro hc
    refine ⟨"Entity metadata not found for " ++ ctor.name, ?_⟩
    simp only [saveRun, List.length_eq_zero]
    rw [if_pos hc]

def exC2Tok : TypeTok := ⟨0, "User"⟩

def exC2Storage : Storage :=
  ⟨[⟨exC2Tok, "user"⟩],
   [⟨exC2Tok, "id", true, true⟩, ⟨exC2Tok, "name", false, false⟩],
   []⟩

def exC2Entity : JRow := [("name", Value.vStr "Ada")]

def exC2Plan : InsertPlan :=
  ⟨["name"], [some (Value.vStr "Ada")], "INSERT INTO user (name) VALUES ($1)"⟩

/-- C2: whenever `save` succeeds, a registered column is in the INSERT
column list iff it is not the case that it is generated and unset on the
instance, and the bound values are positionally the instance's values of
the included columns. -/
theorem save_insert_filter (s : Storage) (ctor : TypeTok) (entity : JRow)
    (plan : InsertPlan) (h : saveRun s ctor entity = .ok plan) :
    (∀ c, c ∈ insertableColumns (s.getColumns ctor) entity ↔
        (c ∈ s.getColumns ctor ∧
          ¬(c.generated = true ∧ jLookup entity c.propertyName = none))) ∧
    plan.columnNames =
      (insertableColumns (s.getColumns ctor) entity).map (·.propertyName) ∧
    plan.values = plan.columnNames.map (jLookup entity) := by
  simp only [saveRun] at h
  split at h
  · exact absurd h (by simp)
  · rw [Except.ok.injEq] at h
    subst h
    refine ⟨fun c => ?_, rfl, rfl⟩
    simp only [insertableColumns, List.mem_filter]
    refine and_congr_right fun _ => ?_
    constructor
    · intro hb hx
      rw [hx.1, hx.2] at hb
      simp at hb
    · intro hx
      by_cases hg : c.generated = true
      · cases ho : jLookup entity c.propertyName with
        | none => exact absurd ⟨hg, ho⟩ hx
        | some v => simp [hg, ho]
      · have hgf : c.generated = false := by
          cases hgg : c.generated
          · rfl
          · exact absurd hgg hg
        simp [hgf]

/-- C2 witness: at a storage with a generated primary key `id` and a plain
column `name`, and an instance with `id` unset, the theorem applies: `id`
is excluded from the INSERT and the single bound value is the instance's
`name`. -/
theorem save_insert_filter_witness :
    (∀ c, c ∈ insertableColumns (exC2Storage.getColumns exC2Tok) exC2Entity ↔
        (c ∈ exC2Storage.getColumns exC2Tok ∧
          ¬(c.generated = true ∧ jLookup exC2Entity c.propertyName = none))) ∧
    exC2Plan.columnNames =
      (insertableColumns (exC2Storage.getColumns exC2Tok) exC2Entity).map
        (·.propertyName) ∧
    exC2Plan.values = exC2Plan.columnNames.map (jLookup exC2Entity) :=
  save_insert_filter exC2Storage exC2Tok exC2Entity exC2Plan rfl

def exC3U : TypeTok := ⟨0, "User"⟩

def exC3R : TypeTok := ⟨1, "Role"⟩

def exC3Storage : Storage :=
  ⟨[⟨exC3U, "user"⟩, ⟨exC3R, "role"⟩],
   [⟨exC3U, "id", true, true⟩, ⟨exC3R, "id", true, true⟩],
   [⟨exC3U, "roles", RelationType.ManyToMany, exC3R⟩,
    ⟨exC3R, "users", RelationType.ManyToMany, exC3U⟩]⟩

/-- C3 counterexample: with `User` and `Role` each having one column and a
`ManyToMany` relation declared on both sides, `synchronize` issues two
entity statements and two join-table statements (one per relation record,
no deduplication), while the unordered-pair deduplication of the claim
counts a single join table — so the total of four statements differs from
the claimed two-plus-one. -/
theorem synchronize_join_not_dedup :
    (entityStatements exC3Storage).length = 2 ∧
    (joinStatements exC3Storage).length = 2 ∧
    (specDedupJoinPairs exC3Storage).length = 1 ∧
    (synchronizeStatements exC3Storage).length ≠
      (entityStatements exC3Storage).length +
        (specDedupJoinPairs exC3Storage).length := by
  refine ⟨rfl, rfl, by decide, by decide⟩

/-- C3 amended: when every registered entity has at least one column,
`synchronize()` issues exactly one `CREATE TABLE IF NOT EXISTS` statement
per registered entity plus one join-table statement per `ManyToMany`
relation record — a relation declared on both sides yields two join-table
statements targeting the same (pair-symmetric) join-table name, idempotent
only through `IF NOT EXISTS`. -/
theorem synchronize_statement_count (s : Storage)
    (h : ∀ e ∈ s.entities, s.getColumns e.target ≠ []) :
    (synchronizeStatements s).length =
      s.entities.length +
        (s.relations.filter
          (fun r => r.relationType = RelationType.ManyToMany)).length := by
  unfold synchronizeStatements entityStatements joinStatements
  rw [List.length_append, List.length_map, List.length_map]
  congr 1
  rw [List.filter_eq_self.mpr]
  intro e he
  simpa using h e he

/-- C3 witness: the amended count at the two-sided `User`/`Role` fixture:
four statements, two entities plus two `ManyToMany` records. -/
theorem synchronize_statement_count_witness :
    (synchronizeStatements exC3Storage).length =
      exC3Storage.entities.length +
        (exC3Storage.relations.filter
          (fun r => r.relationType = RelationType.ManyToMany)).length :=
  synchronize_statement_count exC3Storage (by decide)

theorem find?_append_of_eq_none {α : Type} (p : α → Bool) (l1 l2 : List α)
    (h : l1.find? p = none) : (l1 ++ l2).find? p = l2.find? p := by
  induction l1 with
  | nil => rfl
  | cons a l ih =>
    cases hpa : p a with
    | true => rw [List.find?_cons_of_pos _ hpa] at h; exact absurd h (by simp)
    | false =>
      rw [List.find?_cons_of_neg _ (by simp [hpa])] at h
      rw [List.cons_append, List.find?_cons_of_neg _ (by simp [hpa])]
      exact ih h

theorem getOrCacheSQL_reuse (c : SqlCache) (k b1 b2 : String) :
    (getOrCacheSQL (getOrCacheSQL c k b1).2 k b2).1 = (getOrCacheSQL c k b1).1 := by
  by_cases hc : cacheHas c k = true
  · simp [getOrCacheSQL, hc]
  · have hfind : c.find? (fun p => p.1 = k) = none := by
      cases ho : c.find? (fun p => p.1 = k) with
      | none => rfl
      | some v => exact absurd (by simp [cacheHas, ho]) hc
    have hget1 : getOrCacheSQL c k b1 = (b1, c ++ [(k, b1)]) := by
      rw [getOrCacheSQL, if_neg hc]
    rw [hget1]
    have happ : (c ++ [(k, b1)]).find? (fun p => p.1 = k) = some (k, b1) := by
      rw [find?_append_of_eq_none _ _ _ hfind]
      simp
    have hhas : cacheHas (c ++ [(k, b1)]) k = true := by
      simp [cacheHas, happ]
    have hget2 : getOrCacheSQL (c ++ [(k, b1)]) k b2 =
        (cacheGet (c ++ [(k, b1)]) k, c ++ [(k, b1)]) := by
      rw [getOrCacheSQL, if_pos hhas]
    rw [hget2]
    simp [cacheGet, happ]

/-- C8: the extended `findOne`'s cache key is built from the table name
and the criteria field names only, so a second `findOne` with the same
field names — regardless of its bound values or of its `select` option —
returns the SQL text the first call placed (or found) in the cache. -/
theorem findOne_cache_key_fields_only (c : SqlCache) (table : String)
    (crit1 crit2 : List (String × Value)) (sel1 sel2 : List String)
    (h : crit1.map (·.1) = crit2.map (·.1)) :
    (findOneCached ((findOneCached c table crit1 sel1).2) table crit2 sel2).1 =
      (findOneCached c table crit1 sel1).1 := by
  unfold findOneCached
  rw [← h]
  exact getOrCacheSQL_reuse _ _ _ _

/-- C8 witness: against an empty cache, `findOne({id:1})` with the default
select list caches `SELECT * FROM user WHERE id = $1 LIMIT 1`; the
following `findOne({id:2}, {select: [name]})` call reuses that exact text
although its value and its select option differ. -/
theorem findOne_cache_key_fields_only_witness :
    (findOneCached ((findOneCached [] "user" [("id", Value.vInt 1)] []).2)
        "user" [("id", Value.vInt 2)] ["name"]).1 =
      (findOneCached [] "user" [("id", Value.vInt 1)] []).1 ∧
    (findOneCached [] "user" [("id", Value.vInt 1)] []).1 =
      "SELECT * FROM user WHERE id = $1 LIMIT 1" :=
  ⟨findOne_cache_key_fields_only [] "user" [("id", Value.vInt 1)]
      [("id", Value.vInt 2)] [] ["name"] (by decide), by decide⟩

theorem execFindOne_null_crit (tbl : List JRow) :
    execFindOne tbl [("id", Value.vNull)] = none := by
  unfold execFindOne
  have hnil : tbl.filter (fun r => rowMatches r [("id", Value.vNull)]) = [] := by
    apply List.filter_eq_nil_iff.mpr
    intro r _
    simp [rowMatches, sqlEqMatch]
  rw [hnil]
  rfl

/-- C9: in the simple variant, relation loading for a `ManyToOne` field
issues no query and leaves the field untouched exactly when the row's
`<fieldName>_id` property is `undefined`; for any present value `v`
(including `null`) it issues exactly one secondary `findOne({id: v})`
query and writes its result; in particular for `null` the criterion
`{id: null}` matches no row under SQL equality and the field is set to
`null`. -/
theorem loadRelation_null_vs_undefined (field : String) (tbl : List JRow)
    (ent : JRow) :
    (jLookup ent (field ++ "_id") = none →
      loadOneRelationSimple field tbl ent = ([], none)) ∧
    (∀ v, jLookup ent (field ++ "_id") = some v →
      loadOneRelationSimple field tbl ent =
        ([[("id", v)]], some (execFindOne tbl [("id", v)]))) ∧
    (jLookup ent (field ++ "_id") = some Value.vNull →
      loadOneRelationSimple field tbl ent =
        ([[("id", Value.vNull)]], some none)) := by
  refine ⟨fun h => ?_, fun v h => ?_, fun h => ?_⟩
  · simp [loadOneRelationSimple, h]
  · simp [loadOneRelationSimple, h]
  · simp [loadOneRelationSimple, h, execFindOne_null_crit]

def exC9Tbl : List JRow := [[("id", Value.vInt 10), ("name", Value.vStr "A")]]

def exC9Ent : JRow := [("id", Value.vInt 1), ("author_id", Value.vInt 10)]

/-- C9 witness: a row with `author_id = 10` triggers exactly one
`findOne({id: 10})` against the related table and the matching row is
attached. -/
theorem loadRelation_null_vs_undefined_witness :
    loadOneRelationSimple "author" exC9Tbl exC9Ent =
      ([[("id", Value.vInt 10)]],
       some (some [("id", Value.vInt 10), ("name", Value.vStr "A")])) := by
  rw [(loadRelation_null_vs_undefined "author" exC9Tbl exC9Ent).2.1
      (Value.vInt 10) (by decide)]
  decide

theorem mem_jsSetDedupAux {α : Type} [DecidableEq α] (seen l : List α) (x : α) :
    x ∈ jsSetDedupAux seen l ↔ x ∈ l ∧ x ∉ seen := by
  induction l generalizing seen with
  | nil => simp [jsSetDedupAux]
  | cons a t ih =>
    by_cases ha : a ∈ seen
    · simp only [jsSetDedupAux, if_pos ha, ih, List.mem_cons]
      constructor
      · rintro ⟨hx, hs⟩
        exact ⟨Or.inr hx, hs⟩
      · rintro ⟨(rfl | hx), hs⟩
        · exact absurd ha hs
        · exact ⟨hx, hs⟩
    · simp only [jsSetDedupAux, if_neg ha, List.mem_cons, ih]
      constructor
      · rintro (rfl | ⟨hx, hs⟩)
        · exact ⟨Or.inl rfl, ha⟩
        · exact ⟨Or.inr hx, fun hxs => hs (Or.inr hxs)⟩
      · rintro ⟨(rfl | hx), hs⟩
        · exact Or.inl rfl
        · by_cases hxa : x = a
          · exact Or.inl hxa
          · refine Or.inr ⟨hx, fun hmem => ?_⟩
            rcases hmem with hh | hh
            · exact hxa hh
            · exact hs hh

theorem mem_jsSetDedup {α : Type} [DecidableEq α] (l : List α) (x : α) :
    x ∈ jsSetDedup l ↔ x ∈ l := by
  simp [jsSetDedup, mem_jsSetDedupAux]

theorem mem_collectIds (fk : String) (rows : List JRow) (v : Value) :
    v ∈ collectIds fk rows ↔
      ∃ r ∈ rows, (jLookup r fk).filter Value.truthy = some v := by
  simp [collectIds, mem_jsSetDedup, List.mem_filterMap]

theorem truthy_of_mem_collectIds {fk : String} {rows : List JRow} {v : Value}
    (h : v ∈ collectIds fk rows) : v.truthy = true := by
  rcases (mem_collectIds fk rows v).mp h with ⟨r, _, hf⟩
  cases ho : jLookup r fk with
  | none => rw [ho] at hf; simp [Option.filter] at hf
  | some w =>
    rw [ho] at hf
    by_cases hw : w.truthy
    · have : w = v := by simpa [Option.filter, hw] using hf
      rw [← this]; exact hw
    · simp [Option.filter, hw] at hf

theorem lastWithId_filter_none (rel : List JRow) (q : JRow → Bool)
    (k : Option Value) (h : ∀ r ∈ rel, q r = true → jLookup r "id" ≠ k) :
    lastWithId (rel.filter q) k = none := by
  unfold lastWithId
  apply List.find?_eq_none.mpr
  intro x hx
  have hmem := List.mem_filter.mp (List.mem_reverse.mp hx)
  simp only [decide_eq_true_eq]
  exact h x hmem.1 hmem.2

theorem lastWithId_filter_find (rel : List JRow) (q : JRow → Bool) (v : Value)
    (hnd : (rel.map (fun r => jLookup r "id")).Nodup)
    (hq : ∀ r ∈ rel, jLookup r "id" = some v → q r = true) :
    lastWithId (rel.filter q) (some v) =
      rel.find? (fun r => jLookup r "id" = some v) := by
  cases hf : rel.find? (fun r => jLookup r "id" = some v) with
  | none =>
    apply lastWithId_filter_none
    intro r hr _ heq
    have := List.find?_eq_none.mp hf r hr
    simp [heq] at this
  | some r0 =>
    have hr0mem : r0 ∈ rel := List.mem_of_find?_eq_some hf
    have hr0eq : jLookup r0 "id" = some v := by
      have := List.find?_some hf
      simpa using this
    have hr0fil : r0 ∈ rel.filter q :=
      List.mem_filter.mpr ⟨hr0mem, hq r0 hr0mem hr0eq⟩
    have hr0rev : r0 ∈ (rel.filter q).reverse := List.mem_reverse.mpr hr0fil
    unfold lastWithId
    cases hg : (rel.filter q).reverse.find?
        (fun r => jLookup r "id" = some v) with
    | none =>
      have := List.find?_eq_none.mp hg r0 hr0rev
      simp [hr0eq] at this
    | some x =>
      have hxmem : x ∈ rel :=
        (List.mem_filter.mp (List.mem_reverse.mp
          (List.mem_of_find?_eq_some hg))).1
      have hxeq : jLookup x "id" = some v := by
        have := List.find?_some hg
        simpa using this
      have hxr0 : x = r0 :=
        List.inj_on_of_nodup_map hnd hxmem hr0mem (hxeq.trans hr0eq.symm)
      rw [hxr0]

/-- C4 amended: under unique related-table ids, the extended hydration
equals the amended specification — distinct *truthy* foreign keys are
collected (zero queries and untouched rows when none, one batched query
otherwise), and each row gets the related row matching its truthy foreign
key, or `null` when the key is falsy or unmatched. -/
theorem hydrate_truthy_refinement (field : String) (rows rel : List JRow)
    (hnd : (rel.map (fun r => jLookup r "id")).Nodup) :
    hydrateOne field rows rel = specHydrateTruthy field rows rel := by
  unfold hydrateOne specHydrateTruthy
  by_cases hids : (collectIds (field ++ "_id") rows).isEmpty = true
  · simp [hids]
  · simp only [Bool.not_eq_true] at hids
    simp only [hids, Bool.false_eq_true, if_false]
    congr 1
    apply List.map_congr_left
    intro r hr
    simp only [Prod.mk.injEq, true_and, Option.some.injEq]
    cases hk : jLookup r (field ++ "_id") with
    | none =>
      refine (lastWithId_filter_none rel _ none ?_).trans (by simp)
      intro r' _ hq' heq
      rw [heq] at hq'
      simp at hq'
    | some v =>
      by_cases hv : v.truthy = true
      · have hvids : v ∈ collectIds (field ++ "_id") rows :=
          (mem_collectIds _ rows v).mpr
            ⟨r, hr, by rw [hk]; simp [Option.filter, hv]⟩
        rw [lastWithId_filter_find rel _ v hnd ?_]
        · simp [hv]
        · intro r' _ heq'
          simp only [heq', decide_eq_true_eq]
          exact hvids
      · have hvnot : v ∉ collectIds (field ++ "_id") rows :=
          fun hmem => hv (truthy_of_mem_collectIds hmem)
        refine (lastWithId_filter_none rel _ (some v) ?_).trans (by simp [hv])
        intro r' _ hq' heq'
        rw [heq'] at hq'
        simp only [decide_eq_true_eq] at hq'
        exact hvnot hq'

def exC4Rows : List JRow := [[("id", Value.vInt 1), ("author_id", Value.vInt 0)]]

def exC4Rel : List JRow := [[("id", Value.vInt 0), ("name", Value.vStr "Z")]]

/-- C4 counterexample: a row with the non-null foreign key `author_id = 0`
and a related table containing a row with `id = 0`: the claim predicts one
batched query for the collected id set `{0}` and attachment of that
related row, but `.filter(Boolean)` drops the falsy `0`, so the code
issues zero queries and leaves the row's relation field untouched. -/
theorem hydrate_drops_falsy_ids :
    (hydrateOne "author" exC4Rows exC4Rel).1 = 0 ∧
    (specHydrateOne "author" exC4Rows exC4Rel).1 = 1 ∧
    hydrateOne "author" exC4Rows exC4Rel ≠
      specHydrateOne "author" exC4Rows exC4Rel := by
  refine ⟨rfl, rfl, fun h => ?_⟩
  have h1 : (hydrateOne "author" exC4Rows exC4Rel).1 =
      (specHydrateOne "author" exC4Rows exC4Rel).1 := congrArg Prod.fst h
  rw [show (hydrateOne "author" exC4Rows exC4Rel).1 = 0 from rfl,
      show (specHydrateOne "author" exC4Rows exC4Rel).1 = 1 from rfl] at h1
  exact absurd h1 (by decide)

def exC4Rows3 : List JRow :=
  [[("id", Value.vInt 1), ("author_id", Value.vInt 10)],
   [("id", Value.vInt 2), ("author_id", Value.vInt 10)],
   [("id", Value.vInt 3), ("author_id", Value.vNull)]]

def exC4RelA : List JRow := [[("id", Value.vInt 10), ("name", Value.vStr "A")]]

/-- C4 witness: the spec's own example — rows with `author_id` values
`10`, `10`, `null` against a related table holding id `10` — hydrates
with exactly one batched query, attaching the related row to the first
two rows and `null` to the third. -/
theorem hydrate_truthy_refinement_witness :
    hydrateOne "author" exC4Rows3 exC4RelA =
      (1, [([("id", Value.vInt 1), ("author_id", Value.vInt 10)],
            some (some [("id", Value.vInt 10), ("name", Value.vStr "A")])),
           ([("id", Value.vInt 2), ("author_id", Value.vInt 10)],
            some (some [("id", Value.vInt 10), ("name", Value.vStr "A")])),
           ([("id", Value.vInt 3), ("author_id", Value.vNull)],
            some none)]) := by
  rw [hydrate_truthy_refinement "author" exC4Rows3 exC4RelA (by decide)]
  rfl
